import Mathlib

/-!
# Publish pipeline of the Kafka producer (`kafka_producer.go`)

Shallow embedding of `NewKafkaProducer`, `Publish` and `PublishWithKey`.

* Go `string` / `[]byte` values that the code inspects byte by byte (header
  values, UUID text) are lists of byte values (`Bytes`).
* The collaborators that are not part of the file (JSON encoder, broker
  client, random source, tracing sink) are parameters, collected in `Env`;
  every call the code makes on them is recorded, in program order, in an
  event log.
* A call ends in one of three ways: it returns (`nil` or an error), it
  panics (`uuid.MustParse`), or it blocks for ever on the delivery channel.
-/

set_option autoImplicit false

namespace GoFramework

/-- Go byte strings: one natural number per byte. -/
abbrev Bytes := List Nat

/-- Bytes of an ASCII literal. -/
def ascii (s : String) : Bytes := s.toList.map Char.toNat

/-! ## The UUID library

The producer calls `uuid.New`, `uuid.MustParse` and `UUID.String` of the
imported package `github.com/google/uuid`. The definitions below follow the
source of that package (`Parse`, `xtob`, `encodeHex`, `NewRandomFromReader`);
the random source is assumed to deliver its sixteen bytes.
-/

/-- A `uuid.UUID` is a `[16]byte`; the list holds its bytes in order. -/
abbrev UUID := List Nat

/-- Well-formed array: sixteen entries, each a byte. -/
def UUID.WF (u : UUID) : Prop := u.length = 16 ∧ ∀ b ∈ u, b < 256

/-- Table `xvalues` of the library: value of a hexadecimal digit, `none` where
the table holds 255. -/
def xvalue (c : Nat) : Option Nat :=
  if 48 ≤ c ∧ c ≤ 57 then some (c - 48)
  else if 97 ≤ c ∧ c ≤ 102 then some (c - 87)
  else if 65 ≤ c ∧ c ≤ 70 then some (c - 55)
  else none

/-- Library function `xtob`: two hexadecimal digits to one byte. -/
def xtob (x1 x2 : Nat) : Option Nat :=
  match xvalue x1, xvalue x2 with
  | some b1, some b2 => some (b1 * 16 + b2)
  | _, _ => none

/-- Digit `n` of `"0123456789abcdef"` (`encoding/hex`). -/
def hexDigit (n : Nat) : Nat := if n < 10 then 48 + n else 87 + n

/-- Library function `hex.Encode`: two lowercase digits per byte. -/
def hexEncode : Bytes → Bytes
  | [] => []
  | b :: bs => hexDigit (b / 16) :: hexDigit (b % 16) :: hexEncode bs

/-- Method `UUID.String` (`encodeHex`): `xxxxxxxx-xxxx-xxxx-xxxx-xxxxxxxxxxxx`. -/
def uuidString (u : UUID) : Bytes :=
  hexEncode (u.take 4) ++ [45] ++ hexEncode ((u.drop 4).take 2) ++ [45] ++
    hexEncode ((u.drop 6).take 2) ++ [45] ++ hexEncode ((u.drop 8).take 2) ++ [45] ++
    hexEncode (u.drop 10)

/-- ASCII lower-casing of one byte, used for the `urn:uuid:` prefix test. -/
def lowerByte (c : Nat) : Nat := if 65 ≤ c ∧ c ≤ 90 then c + 32 else c

/-- The loops of `uuid.Parse` over the digit positions: each position is decoded
with `xtob`, and the first position that fails aborts the parse. -/
def collectBytes (f : Nat → Option Nat) : List Nat → Option (List Nat)
  | [] => some []
  | x :: xs =>
    match f x with
    | none => none
    | some v =>
      match collectBytes f xs with
      | none => none
      | some vs => some (v :: vs)

/-- Body of `uuid.Parse` once `s` is in the 36-byte form: the four dashes and
the sixteen digit pairs. -/
def parseCanonical (s : Bytes) : Option UUID :=
  if s.getD 8 0 ≠ 45 ∨ s.getD 13 0 ≠ 45 ∨ s.getD 18 0 ≠ 45 ∨ s.getD 23 0 ≠ 45 then none
  else
    collectBytes (fun x => xtob (s.getD x 0) (s.getD (x + 1) 0))
      [0, 2, 4, 6, 9, 11, 14, 16, 19, 21, 24, 26, 28, 30, 32, 34]

/-- Function `uuid.Parse`: the switch on `len(s)` (36, 36+9 with the URN prefix, 36+2
with one enclosing byte on each side, 32 raw digits), `none` for an error. -/
def uuidParse (s : Bytes) : Option UUID :=
  if s.length = 36 then parseCanonical s
  else if s.length = 45 then
    if (s.take 9).map lowerByte = ascii "urn:uuid:" then parseCanonical (s.drop 9) else none
  else if s.length = 38 then parseCanonical (s.drop 1)
  else if s.length = 32 then
    collectBytes (fun i => xtob (s.getD (i * 2) 0) (s.getD (i * 2 + 1) 0)) (List.range 16)
  else none

/-- Function `uuid.New` on the sixteen bytes `r` read from the random source
(`NewRandomFromReader`): version nibble forced to 4, variant bits to `10`. -/
def uuidNew (r : Bytes) : UUID :=
  let u := (List.range 16).map (fun i => r.getD i 0 % 256)
  (u.set 6 (u.getD 6 0 % 16 + 64)).set 8 (u.getD 8 0 % 64 + 128)

/-- Method `UUID.Version`: high nibble of byte 6. -/
def uuidVersion (u : UUID) : Nat := u.getD 6 0 / 16

/-- The result of `UUID.Variant` is `RFC4122`: the two top bits of byte 8 are `10`. -/
def uuidIsRFC4122 (u : UUID) : Prop := u.getD 8 0 / 64 = 2

/-! ## Data model of `kafka_producer.go` -/

/-- Type `kafka.Header`. -/
structure Header where
  Key : String
  Value : Bytes
deriving DecidableEq

/-- The fields of `kafka.Message` that the producer fills in; `Key` is `none`
for a nil slice. -/
structure Message where
  Topic : String
  Partition : Int
  Offset : Int
  Key : Option Bytes
  Value : Bytes
  Headers : List Header
deriving DecidableEq

/-- Constant `kafka.PartitionAny`. -/
def PartitionAny : Int := -1

/-- Struct `KafkaProducerSettings`. -/
structure KafkaProducerSettings where
  Topic : String
  NumPartitions : Int
  ReplicationFactor : Int
  Partition : Int
  Offset : Int
  TimeoutFlush : Int
deriving DecidableEq

/-- The fields of `GoKafka` that this file reads (the struct is declared in
another file of the package). -/
structure GoKafka where
  server : String
  securityprotocol : String
  saslmechanism : String
  saslusername : String
  saslpassword : String
  groupId : String
deriving DecidableEq

/-- Type `kafka.ConfigValue`: the two kinds of value this file stores. -/
inductive ConfigValue where
  | str (s : String)
  | bool (b : Bool)
deriving DecidableEq

/-- Type `kafka.ConfigMap`, a Go map, as an association list with unique keys. -/
abbrev ConfigMap := List (String × ConfigValue)

/-- Method `ConfigMap.SetKey` for a key without the `{topic}.` prefix: `m[key] = value`. -/
def ConfigMap.SetKey (m : ConfigMap) (key : String) (value : ConfigValue) : ConfigMap :=
  m.filter (fun e => e.1 ≠ key) ++ [(key, value)]

/-- Map read `m[key]`. -/
def ConfigMap.get (m : ConfigMap) (key : String) : Option ConfigValue :=
  (m.find? (fun e => e.1 = key)).map Prod.snd

/-- Struct `KafkaProducer[T]` without the client handle `kp`, whose behaviour is the
`Env` below. -/
structure KafkaProducer where
  kcs : KafkaProducerSettings
  kcm : ConfigMap
  k : GoKafka
deriving DecidableEq

/-- Modelled from the spec: the constant `XCORRELATIONID`, declared in another
file of the package; the spec names the header `X-Correlation-Id`, and
`PublishWithKey` maps that literal to it. -/
def XCORRELATIONID : String := "X-Correlation-Id"

/-! ## `NewKafkaProducer` -/

/-- Lines 40-63 of `NewKafkaProducer`: the configuration map, `hostname` being
the result of `os.Hostname()`. -/
def newConfigMap (k : GoKafka) (hostname : String) : ConfigMap :=
  let kcm : ConfigMap :=
    [("bootstrap.servers", .str k.server), ("client.id", .str hostname), ("acks", .str "all")]
  let kcm :=
    if k.securityprotocol.length > 0 then
      let kcm := kcm.SetKey "security.protocol" (.str k.securityprotocol)
      if k.securityprotocol = "SASL_SSL" then
        kcm.SetKey "enable.ssl.certificate.verification" (.bool true)
      else kcm
    else kcm
  let kcm :=
    if k.saslmechanism.length > 0 then kcm.SetKey "sasl.mechanism" (.str k.saslmechanism) else kcm
  let kcm :=
    if k.saslusername.length > 0 then kcm.SetKey "sasl.username" (.str k.saslusername) else kcm
  let kcm :=
    if k.saslpassword.length > 0 then kcm.SetKey "sasl.password" (.str k.saslpassword) else kcm
  kcm

/-- Function `NewKafkaProducer`: `clientErr` is the error of `kafka.NewProducer(kcm)`,
`none` for nil; the result is `none` where the code returns nil. -/
def NewKafkaProducer {E : Type} (k : GoKafka) (kcs : KafkaProducerSettings) (hostname : String)
    (clientErr : Option E) : Option KafkaProducer :=
  let kcm := newConfigMap k hostname
  match clientErr with
  | some _ => none
  | none => some { kcs := kcs, kcm := kcm, k := k }

/-! ## Collaborators and observable events -/

/-- What the publish calls need from outside the file. `T` is the record
type, `E` the Go `error` values. -/
structure Env (T E : Type) where
  /-- The call `json.Marshal(m)`. -/
  marshal : T → Except E Bytes
  /-- The call `err.Error()`. -/
  errorText : E → String
  /-- Error of `kafka.NewProducer(kp.kcm)` inside `PublishWithKey`, `none` for nil. -/
  newProducer : Option E
  /-- Error returned by the `n`-th call of `Produce` (counted from 0 within one
  publish call), `none` for nil. -/
  produce : Nat → Message → Option E
  /-- What arrives on the delivery channel of the `n`-th message: `none` if
  nothing ever arrives, `some e` for an event whose `TopicPartition.Error` is `e`. -/
  delivery : Nat → Message → Option (Option E)
  /-- The sixteen bytes read by the `n`-th call of `uuid.New()`. -/
  random : Nat → Bytes

/-- One observable step of a publish call, in program order. Spans opened by
`monitoring.Start` are numbered in the order they are opened. -/
inductive Ev (T E : Type) where
  /-- The call `txn.StartSegment(topic)`. -/
  | segmentStart (name : String)
  /-- The call `nrSegment.AddAttribute`. -/
  | segmentAttr (key value : String)
  /-- The deferred `nrSegment.End()`. -/
  | segmentEnd
  /-- The call `kafka.NewProducer(kp.kcm)` of `PublishWithKey`. -/
  | clientNew
  /-- The call `monitoring.Start(correlation, groupId, TracingTypeProducer)`. -/
  | spanStart (span : Nat) (correlation : UUID) (groupId : String)
  /-- The call `tracing.AddContent(m)`. -/
  | addContent (span : Nat) (m : T)
  /-- The call `tracing.AddStack(code, text)`. -/
  | addStack (span : Nat) (code : Nat) (text : String)
  /-- The call `tracing.End()`. -/
  | spanEnd (span : Nat)
  /-- The call `Produce(msg, delivery_chan)`. -/
  | produce (msg : Message)
  /-- The receive `<-delivery_chan` completed, with the error of the event. -/
  | received (err : Option E)
  /-- The call `fmt.Println`. -/
  | println (text : String)
  /-- The `go func()` that ranges over `p.Events()`. -/
  | spawnEventLoop
deriving DecidableEq

/-- How a call ends. -/
inductive Outcome (E : Type) where
  /-- The call returned `err` (`none` is nil). -/
  | returned (err : Option E)
  /-- The call panicked in `uuid.MustParse`. -/
  | panicked
  /-- The call waits for ever on `<-delivery_chan`. -/
  | blocked
deriving DecidableEq

/-- Event log and outcome of one call. -/
structure Run (T E : Type) where
  log : List (Ev T E)
  out : Outcome E

/-! ## `Publish` and `PublishWithKey` -/

/-- The `for _, v := range headers` loop (lines 119-124 and 190-195) on the
state `(hasCorrelationID, correlation)`; `none` is the panic of
`uuid.MustParse`. -/
def scanHeaders : List Header → Bool × UUID → Option (Bool × UUID)
  | [], st => some st
  | v :: rest, st =>
    if v.Key = XCORRELATIONID ∧ v.Value.length > 0 then
      match uuidParse v.Value with
      | none => none
      | some u => scanHeaders rest (true, u)
    else scanHeaders rest st

/-- Lines 117-127 of `PublishWithKey` and 188-198 of `Publish` (the same
text): `fresh` is the value of `uuid.New()`; the result is the header list
after the conditional `append` and the final `correlation`. -/
def resolveCorrelation (headers : List Header) (fresh : UUID) : Option (List Header × UUID) :=
  match scanHeaders headers (false, fresh) with
  | none => none
  | some (hasCorrelationID, correlation) =>
    if !hasCorrelationID then
      some (headers ++ [{ Key := XCORRELATIONID, Value := uuidString correlation }], correlation)
    else some (headers, correlation)

/-- The `kafka.Message` literal of lines 139-147 and 210-214. -/
def KafkaProducer.message (kp : KafkaProducer) (key : Option Bytes) (data : Bytes)
    (headers : List Header) : Message :=
  { Topic := kp.kcs.Topic, Partition := PartitionAny, Offset := kp.kcs.Offset,
    Key := key, Value := data, Headers := headers }

/-- The `for _, m := range msgs` loop of `Publish` (lines 202-221); `n` counts
the records already handled. The outcome `returned none` stands for the loop
running to its end. -/
def publishLoop {T E : Type} (env : Env T E) (kp : KafkaProducer) (headers : List Header) :
    List T → Nat → List (Ev T E) × Outcome E
  | [], _ => ([], .returned none)
  | m :: ms, n =>
    match env.marshal m with
    | .error err => ([], .returned (some err))
    | .ok data =>
      let msg := kp.message none data headers
      let pre : List (Ev T E) := [.addContent 0 m, .addStack 0 100 "PRODUCING...", .produce msg]
      match env.produce n msg with
      | some err =>
        (pre ++ [.addStack 0 500 ("ERROR TO PRODUCING: " ++ env.errorText err),
                 .println (env.errorText err)], .returned (some err))
      | none =>
        match env.delivery n msg with
        | none => (pre, .blocked)
        | some ev =>
          let rest := publishLoop env kp headers ms (n + 1)
          (pre ++ [.received ev, .addStack 0 200 "SUCCESSFULLY PRODUCED"] ++ rest.1, rest.2)

/-- Method `Publish`; `headers` is the value of `helperContextKafka(ctx, ...)`. The
deferred `nrSegment.End()` runs when the function returns or panics. -/
def Publish {T E : Type} (env : Env T E) (kp : KafkaProducer) (headers : List Header)
    (msgs : List T) : Run T E :=
  let pre : List (Ev T E) := [.segmentStart kp.kcs.Topic, .segmentAttr "span.kind" "client"]
  match resolveCorrelation headers (uuidNew (env.random 0)) with
  | none => ⟨pre ++ [.segmentEnd], .panicked⟩
  | some (headers, correlation) =>
    let pre := pre ++ [.spanStart 0 correlation kp.k.groupId]
    match publishLoop env kp headers msgs 0 with
    | (l, .returned none) => ⟨pre ++ l ++ [.spanEnd 0, .segmentEnd], .returned none⟩
    | (l, .blocked) => ⟨pre ++ l, .blocked⟩
    | (l, out) => ⟨pre ++ l ++ [.segmentEnd], out⟩

/-- The `for _, m := range msgs` loop of `PublishWithKey` (lines 115-169);
`headers` is the variable the loop reassigns, `n` counts the records already
handled (each of them drew one UUID and opened one span). -/
def publishWithKeyLoop {T E : Type} (env : Env T E) (kp : KafkaProducer) (key : Option Bytes) :
    List T → List Header → Nat → List (Ev T E) × Outcome E
  | [], _, _ => ([], .returned none)
  | m :: ms, headers, n =>
    match resolveCorrelation headers (uuidNew (env.random n)) with
    | none => ([], .panicked)
    | some (headers, correlation) =>
      let start : List (Ev T E) := [.spanStart n correlation kp.k.groupId]
      match env.marshal m with
      | .error err => (start, .returned (some err))
      | .ok data =>
        let msg := kp.message key data headers
        let pre : List (Ev T E) :=
          start ++ [.addContent n m, .addStack n 100 "PRODUCING...", .produce msg]
        match env.produce n msg with
        | some err =>
          (pre ++ [.addStack n 500 ("ERROR TO PRODUCING: " ++ env.errorText err)],
            .returned (some err))
        | none =>
          match env.delivery n msg with
          | none => (pre, .blocked)
          | some ev =>
            let rest := publishWithKeyLoop env kp key ms headers (n + 1)
            (pre ++ [.received ev, .addStack n 200 "SUCCESSFULLY PRODUCED", .spawnEventLoop]
              ++ rest.1, rest.2)

/-- Method `PublishWithKey`; `headers` is the value of `helperContextKafka(ctx, ...)`. -/
def PublishWithKey {T E : Type} (env : Env T E) (kp : KafkaProducer) (headers : List Header)
    (key : Option Bytes) (msgs : List T) : Run T E :=
  let pre : List (Ev T E) :=
    [.segmentStart kp.kcs.Topic, .segmentAttr "span.kind" "client", .clientNew]
  match env.newProducer with
  | some err => ⟨pre ++ [.segmentEnd], .returned (some err)⟩
  | none =>
    match publishWithKeyLoop env kp key msgs headers 0 with
    | (l, .blocked) => ⟨pre ++ l, .blocked⟩
    | (l, out) => ⟨pre ++ l ++ [.segmentEnd], out⟩

/-! ## Vocabulary of the claims -/

/-- Calls on the broker client, as the client sees them. -/
inductive BrokerOp where
  | submit (msg : Message)
  | await
deriving DecidableEq

/-- The broker-client part of an event log. -/
def brokerOps {T E : Type} : List (Ev T E) → List BrokerOp
  | [] => []
  | .produce msg :: l => .submit msg :: brokerOps l
  | .received _ :: l => .await :: brokerOps l
  | _ :: l => brokerOps l

/-- The messages handed to `Produce`, in order. -/
def submitted {T E : Type} : List (Ev T E) → List Message
  | [] => []
  | .produce msg :: l => msg :: submitted l
  | _ :: l => submitted l

/-- The correlation ids the spans of a log were started with, in order. -/
def spanKeys {T E : Type} : List (Ev T E) → List UUID
  | [] => []
  | .spanStart _ c _ :: l => c :: spanKeys l
  | _ :: l => spanKeys l

/-- The spans of a log on which `End` was called, in order. -/
def spansEnded {T E : Type} : List (Ev T E) → List Nat
  | [] => []
  | .spanEnd i :: l => i :: spansEnded l
  | _ :: l => spansEnded l

/-- The codes of the stack frames recorded in a log, in order. -/
def stackCodes {T E : Type} : List (Ev T E) → List Nat
  | [] => []
  | .addStack _ code _ :: l => code :: stackCodes l
  | _ :: l => stackCodes l

/-- A header the scan reacts to: key `X-Correlation-Id`, `len(v.Value) > 0`. -/
def Header.isCorrelation (h : Header) : Prop := h.Key = XCORRELATIONID ∧ h.Value.length > 0

instance (h : Header) : Decidable h.isCorrelation := by
  unfold Header.isCorrelation; infer_instance

/-- The keys of the map literal passed to `helperContextKafka` (lines 104-108,
182-186). -/
def recognisedKeys : List String :=
  ["X-Tenant-Id", "X-Author", "X-Author-Id", "X-Correlation-Id"]

/-- Modelled from the spec: the contract of `helperContextKafka`, a function of
another file of the package, on its result: at most one header per recognised
key, and every header has a non-empty value (spec 4.1). -/
def ExtractorContract (headers : List Header) : Prop :=
  (∀ k ∈ recognisedKeys, (headers.filter (fun h => h.Key = k)).length ≤ 1) ∧
    ∀ h ∈ headers, h.Value.length > 0

instance (headers : List Header) : Decidable (ExtractorContract headers) := by
  unfold ExtractorContract; infer_instance

/-- The headers of `l` whose key is `X-Correlation-Id`. -/
def correlationHeaders (l : List Header) : List Header :=
  l.filter (fun h => h.Key = XCORRELATIONID)

/-- Exactly one header of `msg` has the key `X-Correlation-Id`, and its value
parses as a UUID. -/
def OneCorrelationHeader (msg : Message) : Prop :=
  (correlationHeaders msg.Headers).length = 1 ∧
    ∀ h ∈ correlationHeaders msg.Headers, (uuidParse h.Value).isSome = true

/-- The exchange `Produce(d1), <-delivery_chan, Produce(d2), <-delivery_chan, ...`
for the payloads `d1, d2, ...` of one call. -/
def inOrder (kp : KafkaProducer) (key : Option Bytes) (headers : List Header) :
    List Bytes → List BrokerOp
  | [] => []
  | d :: ds => .submit (kp.message key d headers) :: .await :: inOrder kp key headers ds

/-- What the resolved correlation id demands of one event: a submitted message
carries the header list `hs`, a span is keyed by `u`. -/
def Ev.okFor {T E : Type} (hs : List Header) (u : UUID) : Ev T E → Prop
  | .produce msg => msg.Headers = hs
  | .spanStart _ c _ => c = u
  | _ => True

/-- Neither a submission nor a span start. -/
def Ev.quiet {T E : Type} : Ev T E → Prop
  | .produce _ => False
  | .spanStart _ _ _ => False
  | _ => True

/-- The value the claim about `NewKafkaProducer` gives to each configuration
key. -/
def expectedConfig (k : GoKafka) (hostname key : String) : Option ConfigValue :=
  if key = "bootstrap.servers" then some (.str k.server)
  else if key = "client.id" then some (.str hostname)
  else if key = "acks" then some (.str "all")
  else if key = "security.protocol" then
    if k.securityprotocol ≠ "" then some (.str k.securityprotocol) else none
  else if key = "enable.ssl.certificate.verification" then
    if k.securityprotocol = "SASL_SSL" then some (.bool true) else none
  else if key = "sasl.mechanism" then
    if k.saslmechanism ≠ "" then some (.str k.saslmechanism) else none
  else if key = "sasl.username" then
    if k.saslusername ≠ "" then some (.str k.saslusername) else none
  else if key = "sasl.password" then
    if k.saslpassword ≠ "" then some (.str k.saslpassword) else none
  else none

/-! ## Concrete inputs for evaluation -/

/-- Records are numbers; record `0` cannot be encoded, any other record `r`
encodes to the single byte `r`. Errors are their texts. The client is
constructed, the broker accepts every message and confirms it without error. -/
def calmEnv : Env Nat String where
  marshal := fun r => if r = 0 then .error "json: unsupported value" else .ok [r]
  errorText := fun e => e
  newProducer := none
  produce := fun _ _ => none
  delivery := fun _ _ => some none
  random := fun n => List.replicate 16 (n + 1)

/-- As `calmEnv`, but every completion event carries a broker error. -/
def lossyEnv : Env Nat String :=
  { calmEnv with delivery := fun _ _ => some (some "Broker: Message timed out") }

/-- As `calmEnv`, but `Produce` refuses every message. -/
def fullEnv : Env Nat String :=
  { calmEnv with produce := fun _ _ => some "Local: Queue full" }

/-- As `calmEnv`, but `kafka.NewProducer` fails inside `PublishWithKey`. -/
def noClientEnv : Env Nat String :=
  { calmEnv with newProducer := some "No such configuration property" }

/-- Connection settings without SASL. -/
def demoKafka : GoKafka :=
  { server := "localhost:9092", securityprotocol := "", saslmechanism := "",
    saslusername := "", saslpassword := "", groupId := "billing" }

/-- A producer for topic `orders`, as `NewKafkaProducer` builds it on host `host-1`. -/
def demoProducer : KafkaProducer where
  kcs := { Topic := "orders", NumPartitions := 1, ReplicationFactor := 1, Partition := 0,
           Offset := 0, TimeoutFlush := 0 }
  kcm := newConfigMap demoKafka "host-1"
  k := demoKafka

/-- A context header whose value is not a UUID. -/
def notAUuid : Header := { Key := XCORRELATIONID, Value := ascii "not-a-uuid" }

/-- The context header `X-Correlation-Id = 550e8400-e29b-41d4-a716-446655440000`. -/
def sampleCorrelation : Header :=
  { Key := XCORRELATIONID, Value := ascii "550e8400-e29b-41d4-a716-446655440000" }

/-- The context header `X-Tenant-Id = acme`. -/
def sampleTenant : Header := { Key := "X-Tenant-Id", Value := ascii "acme" }

/-! ### Facts about the UUID functions -/

theorem xvalue_hexDigit (n : Nat) (hn : n < 16) : xvalue (hexDigit n) = some n := by
  revert n
  decide

theorem xtob_hexDigit (b : Nat) (hb : b < 256) :
    xtob (hexDigit (b / 16)) (hexDigit (b % 16)) = some b := by
  have h1 : b / 16 < 16 := by omega
  have h2 : b % 16 < 16 := by omega
  simp only [xtob, xvalue_hexDigit _ h1, xvalue_hexDigit _ h2]
  congr 1
  omega

theorem uuidNew_wf (r : Bytes) : UUID.WF (uuidNew r) := by
  constructor
  · simp [uuidNew]
  · intro b hb
    simp only [uuidNew] at hb
    rcases List.mem_or_eq_of_mem_set hb with h | h
    · rcases List.mem_or_eq_of_mem_set h with h | h
      · simp only [List.mem_map, List.mem_range] at h
        obtain ⟨i, -, rfl⟩ := h
        exact Nat.mod_lt _ (by norm_num)
      · omega
    · omega

theorem uuidString_length (u : UUID) (hu : u.length = 16) : (uuidString u).length = 36 := by
  match u, hu with
  | [_, _, _, _, _, _, _, _, _, _, _, _, _, _, _, _], _ => rfl

theorem uuidParse_uuidString (u : UUID) (hu : UUID.WF u) : uuidParse (uuidString u) = some u := by
  obtain ⟨hlen, hb⟩ := hu
  match u, hlen with
  | [b0, b1, b2, b3, b4, b5, b6, b7, b8, b9, b10, b11, b12, b13, b14, b15], _ =>
    simp only [List.mem_cons, List.mem_singleton, forall_eq_or_imp, List.not_mem_nil] at hb
    obtain ⟨h0, h1, h2, h3, h4, h5, h6, h7, h8, h9, h10, h11, h12, h13, h14, h15, -⟩ := hb
    simp [uuidParse, uuidString, hexEncode, parseCanonical, collectBytes, xtob_hexDigit, *]

theorem uuidVersion_uuidNew (r : Bytes) : uuidVersion (uuidNew r) = 4 := by
  simp [uuidVersion, uuidNew, List.getD_eq_getElem?_getD, List.getElem?_set]
  omega

theorem uuidIsRFC4122_uuidNew (r : Bytes) : uuidIsRFC4122 (uuidNew r) := by
  simp [uuidIsRFC4122, uuidNew, List.getD_eq_getElem?_getD, List.getElem?_set]
  omega

/-! ### The correlation scan -/

theorem scanHeaders_cons (v : Header) (rest : List Header) (st : Bool × UUID) :
    scanHeaders (v :: rest) st =
      if v.isCorrelation then
        match uuidParse v.Value with
        | none => none
        | some u => scanHeaders rest (true, u)
      else scanHeaders rest st := rfl

theorem scanHeaders_append (a b : List Header) (st : Bool × UUID) :
    scanHeaders (a ++ b) st = (scanHeaders a st).bind (scanHeaders b) := by
  induction a generalizing st with
  | nil => rfl
  | cons v rest ih =>
    simp only [List.cons_append, scanHeaders_cons]
    split
    · cases uuidParse v.Value with
      | none => rfl
      | some u => exact ih _
    · exact ih _

theorem scanHeaders_of_no_match (hs : List Header) (st : Bool × UUID)
    (h : ∀ v ∈ hs, ¬ v.isCorrelation) : scanHeaders hs st = some st := by
  induction hs with
  | nil => rfl
  | cons v rest ih =>
    rw [scanHeaders_cons, if_neg (h v (List.mem_cons_self _ _))]
    exact ih (fun w hw => h w (List.mem_cons_of_mem _ hw))

theorem scanHeaders_parses (hs : List Header) (st r : Bool × UUID)
    (h : scanHeaders hs st = some r) :
    ∀ v ∈ hs, v.isCorrelation → (uuidParse v.Value).isSome = true := by
  induction hs generalizing st with
  | nil => intro v hv; cases hv
  | cons w rest ih =>
    rw [scanHeaders_cons] at h
    intro v hv hc
    by_cases hw : w.isCorrelation
    · rw [if_pos hw] at h
      cases hp : uuidParse w.Value with
      | none => rw [hp] at h; cases h
      | some u =>
        rw [hp] at h
        rcases List.mem_cons.1 hv with rfl | hv
        · rw [hp]; rfl
        · exact ih _ h v hv hc
    · rw [if_neg hw] at h
      rcases List.mem_cons.1 hv with rfl | hv
      · exact absurd hc hw
      · exact ih _ h v hv hc

theorem scanHeaders_ne_none (hs : List Header) (st : Bool × UUID)
    (h : ∀ v ∈ hs, v.isCorrelation → (uuidParse v.Value).isSome = true) :
    ∃ r, scanHeaders hs st = some r := by
  induction hs generalizing st with
  | nil => exact ⟨st, rfl⟩
  | cons w rest ih =>
    have ih2 := fun st => ih st (fun v hv => h v (List.mem_cons_of_mem _ hv))
    rw [scanHeaders_cons]
    by_cases hw : w.isCorrelation
    · rw [if_pos hw]
      have := h w (List.mem_cons_self _ _) hw
      cases hp : uuidParse w.Value with
      | none => rw [hp] at this; cases this
      | some u => exact ih2 _
    · rw [if_neg hw]; exact ih2 _

theorem scanHeaders_false (hs : List Header) (b0 : Bool) (u0 u : UUID)
    (h : scanHeaders hs (b0, u0) = some (false, u)) :
    b0 = false ∧ u = u0 ∧ ∀ v ∈ hs, ¬ v.isCorrelation := by
  induction hs generalizing b0 u0 with
  | nil =>
    simp only [scanHeaders, Option.some.injEq, Prod.mk.injEq] at h
    exact ⟨h.1, h.2.symm, fun v hv => by cases hv⟩
  | cons w rest ih =>
    rw [scanHeaders_cons] at h
    by_cases hw : w.isCorrelation
    · rw [if_pos hw] at h
      cases hp : uuidParse w.Value with
      | none => rw [hp] at h; cases h
      | some u1 =>
        rw [hp] at h
        have := (ih _ _ h).1
        cases this
    · rw [if_neg hw] at h
      obtain ⟨h1, h2, h3⟩ := ih _ _ h
      refine ⟨h1, h2, fun v hv => ?_⟩
      rcases List.mem_cons.1 hv with rfl | hv
      · exact hw
      · exact h3 v hv

theorem scanHeaders_true (hs : List Header) (u0 u : UUID)
    (h : scanHeaders hs (false, u0) = some (true, u)) :
    (∃ v ∈ hs, v.isCorrelation ∧ uuidParse v.Value = some u) ∧
      ∀ u1, scanHeaders hs (false, u1) = some (true, u) := by
  induction hs with
  | nil => simp [scanHeaders] at h
  | cons w rest ih =>
    rw [scanHeaders_cons] at h
    by_cases hw : w.isCorrelation
    · rw [if_pos hw] at h
      cases hp : uuidParse w.Value with
      | none => rw [hp] at h; cases h
      | some u1 =>
        rw [hp] at h
        replace h : scanHeaders rest (true, u1) = some (true, u) := h
        constructor
        · by_cases hr : ∀ v ∈ rest, ¬ v.isCorrelation
          · rw [scanHeaders_of_no_match rest _ hr] at h
            simp only [Option.some.injEq, Prod.mk.injEq, true_and] at h
            exact ⟨w, List.mem_cons_self _ _, hw, hp.trans (congrArg some h)⟩
          · -- a later header overwrote the state: restart the scan there
            have key : ∀ (l : List Header) (a : UUID),
                scanHeaders l (true, a) = some (true, u) → (¬ ∀ v ∈ l, ¬ v.isCorrelation) →
                ∃ v ∈ l, v.isCorrelation ∧ uuidParse v.Value = some u := by
              intro l
              induction l with
              | nil => intro a _ hn; exact absurd (fun v hv => by cases hv) hn
              | cons x xs ihx =>
                intro a hx hn
                rw [scanHeaders_cons] at hx
                by_cases hxc : x.isCorrelation
                · rw [if_pos hxc] at hx
                  cases hpx : uuidParse x.Value with
                  | none => rw [hpx] at hx; cases hx
                  | some ux =>
                    rw [hpx] at hx
                    replace hx : scanHeaders xs (true, ux) = some (true, u) := hx
                    by_cases hr2 : ∀ v ∈ xs, ¬ v.isCorrelation
                    · rw [scanHeaders_of_no_match xs _ hr2] at hx
                      simp only [Option.some.injEq, Prod.mk.injEq, true_and] at hx
                      exact ⟨x, List.mem_cons_self _ _, hxc, hpx.trans (congrArg some hx)⟩
                    · obtain ⟨v, hv, hvc⟩ := ihx ux hx hr2
                      exact ⟨v, List.mem_cons_of_mem _ hv, hvc⟩
                · rw [if_neg hxc] at hx
                  have hn2 : ¬ ∀ v ∈ xs, ¬ v.isCorrelation := by
                    intro hall
                    apply hn
                    intro v hv
                    rcases List.mem_cons.1 hv with rfl | hv
                    · exact hxc
                    · exact hall v hv
                  obtain ⟨v, hv, hvc⟩ := ihx a hx hn2
                  exact ⟨v, List.mem_cons_of_mem _ hv, hvc⟩
            obtain ⟨v, hv, hvc⟩ := key rest u1 h hr
            exact ⟨v, List.mem_cons_of_mem _ hv, hvc⟩
        · intro u2
          rw [scanHeaders_cons, if_pos hw, hp]
          exact h
    · rw [if_neg hw] at h
      obtain ⟨⟨v, hv, hvc⟩, h2⟩ := ih h
      refine ⟨⟨v, List.mem_cons_of_mem _ hv, hvc⟩, fun u2 => ?_⟩
      rw [scanHeaders_cons, if_neg hw]
      exact h2 u2

/-! ### Correlation resolution -/

theorem correlation_header_isCorrelation (u : UUID) (hu : UUID.WF u) :
    Header.isCorrelation { Key := XCORRELATIONID, Value := uuidString u } := by
  refine ⟨rfl, ?_⟩
  show (uuidString u).length > 0
  rw [uuidString_length u hu.1]
  norm_num

theorem resolveCorrelation_none (hs : List Header) (f : UUID)
    (h : ∃ v ∈ hs, v.isCorrelation ∧ uuidParse v.Value = none) :
    resolveCorrelation hs f = none := by
  obtain ⟨v, hv, hc, hp⟩ := h
  unfold resolveCorrelation
  cases hscan : scanHeaders hs (false, f) with
  | none => rfl
  | some r =>
    have := scanHeaders_parses hs _ r hscan v hv hc
    rw [hp] at this
    cases this

theorem resolveCorrelation_absent (hs : List Header) (f : UUID)
    (h : ∀ v ∈ hs, ¬ v.isCorrelation) :
    resolveCorrelation hs f =
      some (hs ++ [{ Key := XCORRELATIONID, Value := uuidString f }], f) := by
  unfold resolveCorrelation
  rw [scanHeaders_of_no_match hs _ h]
  rfl

theorem resolveCorrelation_present (hs : List Header) (f u : UUID) (val : Bytes)
    (hmem : ∃ v ∈ hs, v.isCorrelation)
    (hval : ∀ v ∈ hs, v.isCorrelation → v.Value = val)
    (hp : uuidParse val = some u) :
    resolveCorrelation hs f = some (hs, u) := by
  have hall : ∀ v ∈ hs, v.isCorrelation → (uuidParse v.Value).isSome = true := by
    intro v hv hc
    rw [hval v hv hc, hp]; rfl
  obtain ⟨⟨b, u1⟩, hscan⟩ := scanHeaders_ne_none hs (false, f) hall
  unfold resolveCorrelation
  rw [hscan]
  cases b with
  | false =>
    obtain ⟨v, hv, hc⟩ := hmem
    exact absurd hc ((scanHeaders_false hs _ _ _ hscan).2.2 v hv)
  | true =>
    obtain ⟨⟨v, hv, hc, hpv⟩, -⟩ := scanHeaders_true hs _ _ hscan
    rw [hval v hv hc, hp] at hpv
    simp only [Option.some.injEq] at hpv
    simp [hpv]

/-- Once resolved, the header list resolves to itself and to the same id,
whatever fresh id is drawn. -/
theorem resolveCorrelation_stable (hs hs1 : List Header) (f u : UUID) (hf : UUID.WF f)
    (h : resolveCorrelation hs f = some (hs1, u)) :
    ∀ f1, resolveCorrelation hs1 f1 = some (hs1, u) := by
  intro f1
  unfold resolveCorrelation at h
  cases hscan : scanHeaders hs (false, f) with
  | none => rw [hscan] at h; cases h
  | some r =>
    obtain ⟨b, u1⟩ := r
    rw [hscan] at h
    cases b with
    | true =>
      simp only [Bool.not_true, Bool.false_eq_true, if_false, Option.some.injEq,
        Prod.mk.injEq] at h
      obtain ⟨rfl, rfl⟩ := h
      unfold resolveCorrelation
      rw [(scanHeaders_true hs _ _ hscan).2 f1]
      rfl
    | false =>
      simp only [Bool.not_false, if_true, Option.some.injEq, Prod.mk.injEq] at h
      obtain ⟨rfl, rfl⟩ := h
      obtain ⟨-, rfl, hno⟩ := scanHeaders_false hs _ _ _ hscan
      unfold resolveCorrelation
      rw [scanHeaders_append, scanHeaders_of_no_match hs _ hno]
      simp only [Option.some_bind]
      rw [scanHeaders_cons, if_pos (correlation_header_isCorrelation _ hf)]
      rw [uuidParse_uuidString _ hf]
      rfl

theorem resolveCorrelation_unique (hs hs1 : List Header) (f u : UUID)
    (hc : ExtractorContract hs) (hf : UUID.WF f)
    (h : resolveCorrelation hs f = some (hs1, u)) :
    (correlationHeaders hs1).length = 1 ∧
      ∀ v ∈ correlationHeaders hs1, uuidParse v.Value = some u := by
  unfold resolveCorrelation at h
  cases hscan : scanHeaders hs (false, f) with
  | none => rw [hscan] at h; cases h
  | some r =>
    obtain ⟨b, u1⟩ := r
    rw [hscan] at h
    cases b with
    | false =>
      simp only [Bool.not_false, if_true, Option.some.injEq, Prod.mk.injEq] at h
      obtain ⟨rfl, rfl⟩ := h
      obtain ⟨-, rfl, hno⟩ := scanHeaders_false hs _ _ _ hscan
      have hnil : correlationHeaders hs = [] := by
        unfold correlationHeaders
        rw [List.filter_eq_nil_iff]
        intro v hv hk
        exact hno v hv ⟨of_decide_eq_true hk, hc.2 v hv⟩
      have : correlationHeaders (hs ++ [{ Key := XCORRELATIONID, Value := uuidString u1 }]) =
          [{ Key := XCORRELATIONID, Value := uuidString u1 }] := by
        unfold correlationHeaders at hnil ⊢
        rw [List.filter_append, hnil]
        rfl
      rw [this]
      refine ⟨rfl, fun v hv => ?_⟩
      rw [List.mem_singleton] at hv
      subst hv
      exact uuidParse_uuidString _ hf
    | true =>
      simp only [Bool.not_true, Bool.false_eq_true, if_false, Option.some.injEq,
        Prod.mk.injEq] at h
      obtain ⟨rfl, rfl⟩ := h
      obtain ⟨⟨v, hv, hvc, hpv⟩, -⟩ := scanHeaders_true hs _ _ hscan
      have hle : (correlationHeaders hs).length ≤ 1 :=
        hc.1 XCORRELATIONID (by decide)
      have hmem : v ∈ correlationHeaders hs := by
        unfold correlationHeaders
        rw [List.mem_filter]
        exact ⟨hv, decide_eq_true hvc.1⟩
      match hl : correlationHeaders hs, hle, hmem with
      | [x], _, hm =>
        rw [List.mem_singleton] at hm
        subst hm
        refine ⟨rfl, fun w hw => ?_⟩
        rw [List.mem_singleton] at hw
        subst hw
        exact hpv

/-! ### The two record loops -/

theorem brokerOps_append {T E : Type} (a b : List (Ev T E)) :
    brokerOps (a ++ b) = brokerOps a ++ brokerOps b := by
  induction a with
  | nil => rfl
  | cons e l ih => cases e <;> simp [brokerOps, ih]

theorem publishLoop_okFor {T E : Type} (env : Env T E) (kp : KafkaProducer)
    (hs : List Header) (u : UUID) (msgs : List T) (n : Nat) :
    ∀ ev ∈ (publishLoop env kp hs msgs n).1, Ev.okFor hs u ev ∧ ∀ i c g, ev ≠ .spanStart i c g := by
  induction msgs generalizing n with
  | nil => intro ev hev; cases hev
  | cons m ms ih =>
    intro ev hev
    unfold publishLoop at hev
    cases hm : env.marshal m with
    | error err => rw [hm] at hev; cases hev
    | ok data =>
      rw [hm] at hev
      simp only at hev
      cases hp : env.produce n (kp.message none data hs) with
      | some err =>
        rw [hp] at hev
        simp only [List.cons_append, List.nil_append, List.mem_cons, List.not_mem_nil,
          or_false] at hev
        rcases hev with rfl | rfl | rfl | rfl | rfl <;>
          first
          | exact ⟨trivial, fun _ _ _ h => by cases h⟩
          | exact ⟨rfl, fun _ _ _ h => by cases h⟩
      | none =>
        rw [hp] at hev
        simp only at hev
        cases hd : env.delivery n (kp.message none data hs) with
        | none =>
          rw [hd] at hev
          simp only [List.mem_cons, List.not_mem_nil, or_false] at hev
          rcases hev with rfl | rfl | rfl <;>
            first
            | exact ⟨trivial, fun _ _ _ h => by cases h⟩
            | exact ⟨rfl, fun _ _ _ h => by cases h⟩
        | some e =>
          rw [hd] at hev
          simp only [List.cons_append, List.nil_append, List.mem_cons, List.mem_append] at hev
          rcases hev with rfl | rfl | rfl | rfl | rfl | hev
          · exact ⟨trivial, fun _ _ _ h => by cases h⟩
          · exact ⟨trivial, fun _ _ _ h => by cases h⟩
          · exact ⟨rfl, fun _ _ _ h => by cases h⟩
          · exact ⟨trivial, fun _ _ _ h => by cases h⟩
          · exact ⟨trivial, fun _ _ _ h => by cases h⟩
          · exact ih _ ev hev

theorem publishWithKeyLoop_okFor {T E : Type} (env : Env T E) (kp : KafkaProducer)
    (key : Option Bytes) (hs : List Header) (u : UUID)
    (hst : ∀ f, resolveCorrelation hs f = some (hs, u)) (msgs : List T) (n : Nat) :
    ∀ ev ∈ (publishWithKeyLoop env kp key msgs hs n).1, Ev.okFor hs u ev := by
  induction msgs generalizing n with
  | nil => intro ev hev; cases hev
  | cons m ms ih =>
    intro ev hev
    unfold publishWithKeyLoop at hev
    rw [hst] at hev
    simp only at hev
    cases hm : env.marshal m with
    | error err =>
      rw [hm] at hev
      simp only [List.mem_singleton] at hev
      subst hev
      exact rfl
    | ok data =>
      rw [hm] at hev
      simp only at hev
      cases hp : env.produce n (kp.message key data hs) with
      | some err =>
        rw [hp] at hev
        simp only [List.cons_append, List.nil_append, List.mem_cons, List.not_mem_nil,
          or_false] at hev
        rcases hev with rfl | rfl | rfl | rfl | rfl <;> first | exact trivial | exact rfl
      | none =>
        rw [hp] at hev
        simp only at hev
        cases hd : env.delivery n (kp.message key data hs) with
        | none =>
          rw [hd] at hev
          simp only [List.cons_append, List.nil_append, List.mem_cons, List.not_mem_nil,
            or_false] at hev
          rcases hev with rfl | rfl | rfl | rfl <;> first | exact trivial | exact rfl
        | some e =>
          rw [hd] at hev
          simp only [List.cons_append, List.nil_append, List.mem_cons, List.mem_append] at hev
          rcases hev with rfl | rfl | rfl | rfl | rfl | rfl | rfl | hev
          · exact rfl
          · exact trivial
          · exact trivial
          · exact rfl
          · exact trivial
          · exact trivial
          · exact trivial
          · exact ih _ ev hev

/-- The loop of `PublishWithKey` from an arbitrary header list: whatever the
first iteration resolves holds for every later one. -/
theorem publishWithKeyLoop_resolved {T E : Type} (env : Env T E) (kp : KafkaProducer)
    (key : Option Bytes) (hs : List Header) (msgs : List T) (n : Nat) :
    match resolveCorrelation hs (uuidNew (env.random n)) with
    | none => (publishWithKeyLoop env kp key msgs hs n).1 = []
    | some (hs1, u) => ∀ ev ∈ (publishWithKeyLoop env kp key msgs hs n).1, Ev.okFor hs1 u ev := by
  cases hres : resolveCorrelation hs (uuidNew (env.random n)) with
  | none =>
    cases msgs with
    | nil => rfl
    | cons m ms =>
      show (publishWithKeyLoop env kp key (m :: ms) hs n).1 = []
      unfold publishWithKeyLoop
      rw [hres]
  | some r =>
    obtain ⟨hs1, u⟩ := r
    have hst := resolveCorrelation_stable hs hs1 _ u (uuidNew_wf _) hres
    show ∀ ev ∈ (publishWithKeyLoop env kp key msgs hs n).1, Ev.okFor hs1 u ev
    cases msgs with
    | nil => intro ev hev; cases hev
    | cons m ms =>
      have e1 : publishWithKeyLoop env kp key (m :: ms) hs n =
          publishWithKeyLoop env kp key (m :: ms) hs1 n := by
        conv_lhs => unfold publishWithKeyLoop
        conv_rhs => unfold publishWithKeyLoop
        rw [hres, hst]
      rw [e1]
      exact publishWithKeyLoop_okFor env kp key hs1 u hst _ _

/-! ### Shape of a whole call -/

theorem Publish_shape {T E : Type} (env : Env T E) (kp : KafkaProducer) (hs hs1 : List Header)
    (u : UUID) (msgs : List T)
    (hres : resolveCorrelation hs (uuidNew (env.random 0)) = some (hs1, u)) :
    ∃ tail : List (Ev T E),
      (Publish env kp hs msgs).log =
        [.segmentStart kp.kcs.Topic, .segmentAttr "span.kind" "client",
          .spanStart 0 u kp.k.groupId] ++ (publishLoop env kp hs1 msgs 0).1 ++ tail ∧
      (∀ ev ∈ tail, ev = .spanEnd 0 ∨ ev = .segmentEnd) ∧
      (Publish env kp hs msgs).out = (publishLoop env kp hs1 msgs 0).2 := by
  unfold Publish
  rw [hres]
  simp only
  rcases hl : publishLoop env kp hs1 msgs 0 with ⟨l, o⟩
  rcases o with (_ | e) | _ | _
  · exact ⟨[.spanEnd 0, .segmentEnd], by simp, by simp, rfl⟩
  · exact ⟨[.segmentEnd], by simp, by simp, rfl⟩
  · exact ⟨[.segmentEnd], by simp, by simp, rfl⟩
  · exact ⟨[], by simp, by simp, rfl⟩

theorem Publish_panics {T E : Type} (env : Env T E) (kp : KafkaProducer) (hs : List Header)
    (msgs : List T) (hres : resolveCorrelation hs (uuidNew (env.random 0)) = none) :
    (Publish env kp hs msgs).log =
        [.segmentStart kp.kcs.Topic, .segmentAttr "span.kind" "client", .segmentEnd] ∧
      (Publish env kp hs msgs).out = .panicked := by
  unfold Publish
  rw [hres]
  exact ⟨rfl, rfl⟩

theorem PublishWithKey_shape {T E : Type} (env : Env T E) (kp : KafkaProducer)
    (hs : List Header) (key : Option Bytes) (msgs : List T) (hnew : env.newProducer = none) :
    ∃ tail : List (Ev T E),
      (PublishWithKey env kp hs key msgs).log =
        [.segmentStart kp.kcs.Topic, .segmentAttr "span.kind" "client", .clientNew] ++
          (publishWithKeyLoop env kp key msgs hs 0).1 ++ tail ∧
      (∀ ev ∈ tail, ev = .segmentEnd) ∧
      (PublishWithKey env kp hs key msgs).out = (publishWithKeyLoop env kp key msgs hs 0).2 := by
  unfold PublishWithKey
  rw [hnew]
  simp only
  rcases hl : publishWithKeyLoop env kp key msgs hs 0 with ⟨l, o⟩
  rcases o with (_ | e) | _ | _
  · exact ⟨[.segmentEnd], by simp, by simp, rfl⟩
  · exact ⟨[.segmentEnd], by simp, by simp, rfl⟩
  · exact ⟨[.segmentEnd], by simp, by simp, rfl⟩
  · exact ⟨[], by simp, by simp, rfl⟩

theorem PublishWithKey_no_client {T E : Type} (env : Env T E) (kp : KafkaProducer)
    (hs : List Header) (key : Option Bytes) (msgs : List T) (err : E)
    (hnew : env.newProducer = some err) :
    (PublishWithKey env kp hs key msgs).log =
        [.segmentStart kp.kcs.Topic, .segmentAttr "span.kind" "client", .clientNew,
          .segmentEnd] ∧
      (PublishWithKey env kp hs key msgs).out = .returned (some err) := by
  unfold PublishWithKey
  rw [hnew]
  exact ⟨rfl, rfl⟩

/-- Every event of a `Publish` call agrees with the resolved correlation id;
without one (panic) there is no submission and no span. -/
theorem Publish_events {T E : Type} (env : Env T E) (kp : KafkaProducer) (hs : List Header)
    (msgs : List T) :
    match resolveCorrelation hs (uuidNew (env.random 0)) with
    | none => ∀ ev ∈ (Publish env kp hs msgs).log, Ev.quiet ev
    | some (hs1, u) => ∀ ev ∈ (Publish env kp hs msgs).log, Ev.okFor hs1 u ev := by
  cases hres : resolveCorrelation hs (uuidNew (env.random 0)) with
  | none =>
    show ∀ ev ∈ (Publish env kp hs msgs).log, Ev.quiet ev
    rw [(Publish_panics env kp hs msgs hres).1]
    intro ev hev
    simp only [List.mem_cons, List.not_mem_nil, or_false] at hev
    rcases hev with rfl | rfl | rfl <;> exact trivial
  | some r =>
    obtain ⟨hs1, u⟩ := r
    show ∀ ev ∈ (Publish env kp hs msgs).log, Ev.okFor hs1 u ev
    obtain ⟨tail, hlog, htail, -⟩ := Publish_shape env kp hs hs1 u msgs hres
    rw [hlog]
    intro ev hev
    simp only [List.cons_append, List.nil_append, List.mem_cons, List.mem_append] at hev
    rcases hev with rfl | rfl | rfl | hev | hev
    · exact trivial
    · exact trivial
    · exact rfl
    · exact (publishLoop_okFor env kp hs1 u msgs 0 ev hev).1
    · rcases htail ev hev with rfl | rfl <;> exact trivial

/-- The same for `PublishWithKey`, for every iteration of its loop. -/
theorem PublishWithKey_events {T E : Type} (env : Env T E) (kp : KafkaProducer)
    (hs : List Header) (key : Option Bytes) (msgs : List T) :
    match resolveCorrelation hs (uuidNew (env.random 0)) with
    | none => ∀ ev ∈ (PublishWithKey env kp hs key msgs).log, Ev.quiet ev
    | some (hs1, u) => ∀ ev ∈ (PublishWithKey env kp hs key msgs).log, Ev.okFor hs1 u ev := by
  have hloop := publishWithKeyLoop_resolved env kp key hs msgs 0
  cases hnew : env.newProducer with
  | some err =>
    have hlog := (PublishWithKey_no_client env kp hs key msgs err hnew).1
    have hq : ∀ ev ∈ (PublishWithKey env kp hs key msgs).log,
        Ev.quiet ev ∧ ∀ hs1 u, Ev.okFor hs1 u ev := by
      rw [hlog]
      intro ev hev
      simp only [List.mem_cons, List.not_mem_nil, or_false] at hev
      rcases hev with rfl | rfl | rfl | rfl <;> exact ⟨trivial, fun _ _ => trivial⟩
    cases hres : resolveCorrelation hs (uuidNew (env.random 0)) with
    | none => exact fun ev hev => (hq ev hev).1
    | some r => exact fun ev hev => (hq ev hev).2 _ _
  | none =>
    obtain ⟨tail, hlog, htail, -⟩ := PublishWithKey_shape env kp hs key msgs hnew
    cases hres : resolveCorrelation hs (uuidNew (env.random 0)) with
    | none =>
      rw [hres] at hloop
      show ∀ ev ∈ (PublishWithKey env kp hs key msgs).log, Ev.quiet ev
      rw [hlog, hloop]
      intro ev hev
      simp only [List.cons_append, List.nil_append, List.append_nil, List.mem_cons,
        List.mem_append, List.not_mem_nil, or_false, false_or] at hev
      rcases hev with rfl | rfl | rfl | hev
      · exact trivial
      · exact trivial
      · exact trivial
      · rw [htail ev hev]; exact trivial
    | some r =>
      obtain ⟨hs1, u⟩ := r
      rw [hres] at hloop
      show ∀ ev ∈ (PublishWithKey env kp hs key msgs).log, Ev.okFor hs1 u ev
      rw [hlog]
      intro ev hev
      simp only [List.cons_append, List.nil_append, List.mem_cons, List.mem_append] at hev
      rcases hev with rfl | rfl | rfl | hev | hev
      · exact trivial
      · exact trivial
      · exact trivial
      · exact hloop ev hev
      · rw [htail ev hev]; exact trivial

/-! ### One iteration at a time -/

theorem publishLoop_cons_error {T E : Type} (env : Env T E) (kp : KafkaProducer)
    (hs : List Header) (m : T) (ms : List T) (n : Nat) (e : E)
    (hm : env.marshal m = .error e) :
    publishLoop env kp hs (m :: ms) n = ([], .returned (some e)) := by
  unfold publishLoop
  rw [hm]

theorem publishLoop_cons_ok {T E : Type} (env : Env T E) (kp : KafkaProducer)
    (hs : List Header) (m : T) (ms : List T) (n : Nat) (data : Bytes) (ev : Option E)
    (hm : env.marshal m = .ok data)
    (hp : env.produce n (kp.message none data hs) = none)
    (hd : env.delivery n (kp.message none data hs) = some ev) :
    publishLoop env kp hs (m :: ms) n =
      ([.addContent 0 m, .addStack 0 100 "PRODUCING...", .produce (kp.message none data hs),
          .received ev, .addStack 0 200 "SUCCESSFULLY PRODUCED"] ++
        (publishLoop env kp hs ms (n + 1)).1, (publishLoop env kp hs ms (n + 1)).2) := by
  conv_lhs => unfold publishLoop
  rw [hm]
  simp only [hp, hd, List.cons_append, List.nil_append]

theorem publishWithKeyLoop_cons_error {T E : Type} (env : Env T E) (kp : KafkaProducer)
    (key : Option Bytes) (hs : List Header) (u : UUID)
    (hst : ∀ f, resolveCorrelation hs f = some (hs, u)) (m : T) (ms : List T) (n : Nat) (e : E)
    (hm : env.marshal m = .error e) :
    publishWithKeyLoop env kp key (m :: ms) hs n =
      ([.spanStart n u kp.k.groupId], .returned (some e)) := by
  unfold publishWithKeyLoop
  rw [hst, hm]

theorem publishWithKeyLoop_cons_ok {T E : Type} (env : Env T E) (kp : KafkaProducer)
    (key : Option Bytes) (hs : List Header) (u : UUID)
    (hst : ∀ f, resolveCorrelation hs f = some (hs, u)) (m : T) (ms : List T) (n : Nat)
    (data : Bytes) (ev : Option E)
    (hm : env.marshal m = .ok data)
    (hp : env.produce n (kp.message key data hs) = none)
    (hd : env.delivery n (kp.message key data hs) = some ev) :
    publishWithKeyLoop env kp key (m :: ms) hs n =
      ([.spanStart n u kp.k.groupId, .addContent n m, .addStack n 100 "PRODUCING...",
          .produce (kp.message key data hs), .received ev,
          .addStack n 200 "SUCCESSFULLY PRODUCED", .spawnEventLoop] ++
        (publishWithKeyLoop env kp key ms hs (n + 1)).1,
        (publishWithKeyLoop env kp key ms hs (n + 1)).2) := by
  conv_lhs => unfold publishWithKeyLoop
  rw [hst, hm]
  simp only [hp, hd, List.cons_append, List.nil_append]

/-- The first iteration of the `PublishWithKey` loop may be replayed on the
header list it resolves. -/
theorem publishWithKeyLoop_restart {T E : Type} (env : Env T E) (kp : KafkaProducer)
    (key : Option Bytes) (hs hs1 : List Header) (u : UUID) (msgs : List T) (n : Nat)
    (hres : resolveCorrelation hs (uuidNew (env.random n)) = some (hs1, u)) :
    publishWithKeyLoop env kp key msgs hs n = publishWithKeyLoop env kp key msgs hs1 n := by
  have hst := resolveCorrelation_stable hs hs1 _ u (uuidNew_wf _) hres
  cases msgs with
  | nil => unfold publishWithKeyLoop; rfl
  | cons m ms =>
    conv_lhs => unfold publishWithKeyLoop
    conv_rhs => unfold publishWithKeyLoop
    rw [hres, hst]

theorem publishLoop_returned_nil {T E : Type} (env : Env T E) (kp : KafkaProducer)
    (hs : List Header) (msgs : List T) (n : Nat)
    (h : (publishLoop env kp hs msgs n).2 = .returned none) :
    ∃ datas, List.Forall₂ (fun r d => env.marshal r = .ok d) msgs datas ∧
      brokerOps (publishLoop env kp hs msgs n).1 = inOrder kp none hs datas := by
  induction msgs generalizing n with
  | nil => exact ⟨[], List.Forall₂.nil, rfl⟩
  | cons m ms ih =>
    cases hm : env.marshal m with
    | error e =>
      rw [publishLoop_cons_error env kp hs m ms n e hm] at h
      cases h
    | ok data =>
      cases hp : env.produce n (kp.message none data hs) with
      | some err =>
        unfold publishLoop at h
        rw [hm] at h
        simp only [hp] at h
        cases h
      | none =>
        cases hd : env.delivery n (kp.message none data hs) with
        | none =>
          unfold publishLoop at h
          rw [hm] at h
          simp only [hp, hd] at h
          cases h
        | some ev =>
          rw [publishLoop_cons_ok env kp hs m ms n data ev hm hp hd] at h ⊢
          obtain ⟨datas, hf, hops⟩ := ih (n + 1) h
          refine ⟨data :: datas, List.Forall₂.cons hm hf, ?_⟩
          simp [brokerOps, inOrder, hops]

theorem publishLoop_encoding {T E : Type} (env : Env T E) (kp : KafkaProducer)
    (hs : List Header) (pre : List T) (datas : List Bytes) (bad : T) (post : List T) (e : E)
    (n : Nat)
    (hpre : List.Forall₂ (fun r d => env.marshal r = .ok d) pre datas)
    (hbad : env.marshal bad = .error e)
    (hacc : ∀ i msg, env.produce i msg = none)
    (hconf : ∀ i msg, (env.delivery i msg).isSome = true) :
    (publishLoop env kp hs (pre ++ bad :: post) n).2 = .returned (some e) ∧
      brokerOps (publishLoop env kp hs (pre ++ bad :: post) n).1 = inOrder kp none hs datas := by
  induction hpre generalizing n with
  | nil =>
    rw [List.nil_append, publishLoop_cons_error env kp hs bad post n e hbad]
    exact ⟨rfl, rfl⟩
  | @cons r d rs ds hr _ ih =>
    obtain ⟨ev, hd⟩ := Option.isSome_iff_exists.1 (hconf n (kp.message none d hs))
    rw [List.cons_append, publishLoop_cons_ok env kp hs r _ n d ev hr (hacc _ _) hd]
    obtain ⟨h1, h2⟩ := ih (n + 1)
    refine ⟨h1, ?_⟩
    simp [brokerOps, inOrder, h2]

theorem publishWithKeyLoop_encoding {T E : Type} (env : Env T E) (kp : KafkaProducer)
    (key : Option Bytes) (hs : List Header) (u : UUID)
    (hst : ∀ f, resolveCorrelation hs f = some (hs, u))
    (pre : List T) (datas : List Bytes) (bad : T) (post : List T) (e : E) (n : Nat)
    (hpre : List.Forall₂ (fun r d => env.marshal r = .ok d) pre datas)
    (hbad : env.marshal bad = .error e)
    (hacc : ∀ i msg, env.produce i msg = none)
    (hconf : ∀ i msg, (env.delivery i msg).isSome = true) :
    (publishWithKeyLoop env kp key (pre ++ bad :: post) hs n).2 = .returned (some e) ∧
      brokerOps (publishWithKeyLoop env kp key (pre ++ bad :: post) hs n).1 =
        inOrder kp key hs datas := by
  induction hpre generalizing n with
  | nil =>
    rw [List.nil_append, publishWithKeyLoop_cons_error env kp key hs u hst bad post n e hbad]
    exact ⟨rfl, rfl⟩
  | @cons r d rs ds hr _ ih =>
    obtain ⟨ev, hd⟩ := Option.isSome_iff_exists.1 (hconf n (kp.message key d hs))
    rw [List.cons_append,
      publishWithKeyLoop_cons_ok env kp key hs u hst r _ n d ev hr (hacc _ _) hd]
    obtain ⟨h1, h2⟩ := ih (n + 1)
    refine ⟨h1, ?_⟩
    simp [brokerOps, inOrder, h2]

/-! ## The client configuration -/

theorem length_pos_iff (s : String) : s.length > 0 ↔ s ≠ "" := by
  obtain ⟨l⟩ := s
  cases l with
  | nil => simp [String.length]
  | cons c cs =>
    simp only [String.length, List.length_cons, gt_iff_lt, Nat.zero_lt_succ, true_iff]
    intro h
    have := congrArg String.data h
    simp at this

theorem get_SetKey (m : ConfigMap) (k : String) (v : ConfigValue) (key : String) :
    (m.SetKey k v).get key = if key = k then some v else m.get key := by
  unfold ConfigMap.SetKey ConfigMap.get
  induction m with
  | nil =>
    by_cases h : key = k
    · simp [h]
    · have h2 : ¬ k = key := fun e => h e.symm
      simp [h, h2]
  | cons e m ih =>
    by_cases hek : e.1 = k
    · have hf : List.filter (fun e => decide (e.1 ≠ k)) (e :: m) =
          List.filter (fun e => decide (e.1 ≠ k)) m := by
        simp [List.filter_cons, hek]
      rw [hf, ih]
      by_cases h : key = k
      · simp [h]
      · have hne : ¬ e.1 = key := fun e2 => h (e2.symm.trans hek)
        simp [h, List.find?_cons, hne]
    · have hf : List.filter (fun e => decide (e.1 ≠ k)) (e :: m) =
          e :: List.filter (fun e => decide (e.1 ≠ k)) m := by
        simp [List.filter_cons, hek]
      rw [hf, List.cons_append, List.find?_cons, List.find?_cons]
      by_cases he : e.1 = key
      · have hne : ¬ key = k := fun e2 => hek (he.trans e2)
        simp [he, hne]
      · simp only [he, decide_False]
        exact ih

theorem get_initial (a b c : ConfigValue) (key : String) :
    ConfigMap.get [("bootstrap.servers", a), ("client.id", b), ("acks", c)] key =
      if key = "bootstrap.servers" then some a
      else if key = "client.id" then some b
      else if key = "acks" then some c
      else none := by
  unfold ConfigMap.get
  by_cases h1 : key = "bootstrap.servers"
  · subst h1; simp
  by_cases h2 : key = "client.id"
  · subst h2; simp
  by_cases h3 : key = "acks"
  · subst h3; simp
  have g1 : ¬ "bootstrap.servers" = key := fun e => h1 e.symm
  have g2 : ¬ "client.id" = key := fun e => h2 e.symm
  have g3 : ¬ "acks" = key := fun e => h3 e.symm
  simp [List.find?_cons, h1, h2, h3, g1, g2, g3]

theorem keys_SetKey (m : ConfigMap) (k : String) (v : ConfigValue)
    (h : (m.map Prod.fst).Nodup) : ((m.SetKey k v).map Prod.fst).Nodup := by
  unfold ConfigMap.SetKey
  rw [List.map_append, List.nodup_append]
  refine ⟨(h.sublist ((List.filter_sublist m).map _)), by simp, ?_⟩
  intro x hx hk
  simp only [List.map_cons, List.map_nil, List.mem_singleton] at hk
  subst hk
  simp only [List.mem_map, List.mem_filter] at hx
  obtain ⟨e, ⟨-, he⟩, rfl⟩ := hx
  simp at he

theorem newConfigMap_get_eq (k : GoKafka) (hostname key : String) :
    (newConfigMap k hostname).get key = expectedConfig k hostname key := by
  unfold newConfigMap expectedConfig
  simp only [length_pos_iff]
  have hk : key = "bootstrap.servers" ∨ key = "client.id" ∨ key = "acks" ∨
      key = "security.protocol" ∨ key = "enable.ssl.certificate.verification" ∨
      key = "sasl.mechanism" ∨ key = "sasl.username" ∨ key = "sasl.password" ∨
      (¬ key = "bootstrap.servers" ∧ ¬ key = "client.id" ∧ ¬ key = "acks" ∧
        ¬ key = "security.protocol" ∧ ¬ key = "enable.ssl.certificate.verification" ∧
        ¬ key = "sasl.mechanism" ∧ ¬ key = "sasl.username" ∧ ¬ key = "sasl.password") := by
    tauto
  rcases hk with rfl | rfl | rfl | rfl | rfl | rfl | rfl | rfl |
      ⟨n1, n2, n3, n4, n5, n6, n7, n8⟩ <;>
    by_cases h1 : k.securityprotocol = "" <;> by_cases h2 : k.saslmechanism = "" <;>
    by_cases h3 : k.saslusername = "" <;> by_cases h4 : k.saslpassword = "" <;>
    by_cases h5 : k.securityprotocol = "SASL_SSL" <;>
    simp [*, get_SetKey, get_initial]

theorem newConfigMap_keys_nodup (k : GoKafka) (hostname : String) :
    ((newConfigMap k hostname).map Prod.fst).Nodup := by
  unfold newConfigMap
  simp only [length_pos_iff]
  have base : (List.map Prod.fst ([("bootstrap.servers", ConfigValue.str k.server),
      ("client.id", ConfigValue.str hostname), ("acks", ConfigValue.str "all")] :
        ConfigMap)).Nodup := by simp
  split_ifs <;> repeat (first | exact base | apply keys_SetKey)

/-- C10. The configuration map built by `NewKafkaProducer` holds
`bootstrap.servers`, `client.id` and `acks = "all"` always, `security.protocol`
iff the protocol is non-empty, `enable.ssl.certificate.verification = true` iff
the protocol is `SASL_SSL`, each `sasl.*` key iff its setting is non-empty, and
no other key; the producer that is returned stores exactly this map. -/
theorem client_configuration_keys (E : Type) (k : GoKafka) (kcs : KafkaProducerSettings)
    (hostname key : String) :
    (newConfigMap k hostname).get key = expectedConfig k hostname key ∧
      ((newConfigMap k hostname).map Prod.fst).Nodup ∧
      (NewKafkaProducer k kcs hostname (none : Option E)).map (fun kp => kp.kcm) =
        some (newConfigMap k hostname) :=
  ⟨newConfigMap_get_eq k hostname key, newConfigMap_keys_nodup k hostname, rfl⟩

/-! ## Projections of the log -/

theorem submitted_okFor {T E : Type} (hs : List Header) (u : UUID) (l : List (Ev T E))
    (h : ∀ ev ∈ l, Ev.okFor hs u ev) :
    (∀ msg ∈ submitted l, msg.Headers = hs) ∧ ∀ c ∈ spanKeys l, c = u := by
  induction l with
  | nil => exact ⟨fun _ hm => (by cases hm), fun _ hc => (by cases hc)⟩
  | cons e l ih =>
    have h0 := h e (List.mem_cons_self _ _)
    obtain ⟨ih1, ih2⟩ := ih (fun ev hev => h ev (List.mem_cons_of_mem _ hev))
    cases e <;> simp only [submitted, spanKeys, List.mem_cons, forall_eq_or_imp] <;>
      first
      | exact ⟨ih1, ih2⟩
      | exact ⟨⟨h0, ih1⟩, ih2⟩
      | exact ⟨ih1, ⟨h0, ih2⟩⟩

theorem submitted_quiet {T E : Type} (l : List (Ev T E)) (h : ∀ ev ∈ l, Ev.quiet ev) :
    submitted l = [] ∧ spanKeys l = [] := by
  induction l with
  | nil => exact ⟨rfl, rfl⟩
  | cons e l ih =>
    have h0 := h e (List.mem_cons_self _ _)
    obtain ⟨ih1, ih2⟩ := ih (fun ev hev => h ev (List.mem_cons_of_mem _ hev))
    cases e <;> first | exact ⟨ih1, ih2⟩ | exact absurd h0 id

theorem spanKeys_append {T E : Type} (a b : List (Ev T E)) :
    spanKeys (a ++ b) = spanKeys a ++ spanKeys b := by
  induction a with
  | nil => rfl
  | cons e l ih => cases e <;> simp [spanKeys, ih]

theorem spanKeys_publishLoop {T E : Type} (env : Env T E) (kp : KafkaProducer)
    (hs : List Header) (msgs : List T) (n : Nat) :
    spanKeys (publishLoop env kp hs msgs n).1 = [] := by
  have h := publishLoop_okFor env kp hs [] msgs n
  generalize (publishLoop env kp hs msgs n).1 = l at h
  induction l with
  | nil => rfl
  | cons e l ih =>
    have h0 := (h e (List.mem_cons_self _ _)).2
    have ih1 := ih (fun ev hev => h ev (List.mem_cons_of_mem _ hev))
    cases e <;> first | exact ih1 | exact absurd rfl (h0 _ _ _)

theorem Publish_spanKeys {T E : Type} (env : Env T E) (kp : KafkaProducer)
    (hs hs1 : List Header) (u : UUID) (msgs : List T)
    (hres : resolveCorrelation hs (uuidNew (env.random 0)) = some (hs1, u)) :
    spanKeys (Publish env kp hs msgs).log = [u] := by
  obtain ⟨tail, hlog, htail, -⟩ := Publish_shape env kp hs hs1 u msgs hres
  have ht : spanKeys tail = [] := by
    clear hlog
    induction tail with
    | nil => rfl
    | cons e l ih =>
      have ih1 := ih (fun ev hev => htail ev (List.mem_cons_of_mem _ hev))
      rcases htail e (List.mem_cons_self _ _) with rfl | rfl <;> exact ih1
  rw [hlog, spanKeys_append, spanKeys_append, spanKeys_publishLoop, ht]
  rfl

theorem brokerOps_tail {T E : Type} (tail : List (Ev T E))
    (h : ∀ ev ∈ tail, ev = .spanEnd 0 ∨ ev = .segmentEnd) : brokerOps tail = [] := by
  induction tail with
  | nil => rfl
  | cons e l ih =>
    have ih1 := ih (fun ev hev => h ev (List.mem_cons_of_mem _ hev))
    rcases h e (List.mem_cons_self _ _) with rfl | rfl <;> exact ih1

theorem resolveCorrelation_some (hs : List Header) (f : UUID)
    (h : ∀ v ∈ hs, v.isCorrelation → (uuidParse v.Value).isSome = true) :
    ∃ hs1 u, resolveCorrelation hs f = some (hs1, u) := by
  obtain ⟨⟨b, u⟩, hscan⟩ := scanHeaders_ne_none hs (false, f) h
  unfold resolveCorrelation
  rw [hscan]
  cases b
  · exact ⟨_, _, rfl⟩
  · exact ⟨_, _, rfl⟩

/-! ## The claims on the correlation id -/

/-- C1. Whenever the header extractor meets its contract, every message that
`Publish` or `PublishWithKey` hands to `Produce`, for any records, carries
exactly one `X-Correlation-Id` header, and its value parses as a UUID; this
covers the second and later records of `PublishWithKey`. -/
theorem one_correlation_header_per_message {T E : Type} (env : Env T E) (kp : KafkaProducer)
    (headers : List Header) (key : Option Bytes) (msgs : List T)
    (hc : ExtractorContract headers) :
    (∀ msg ∈ submitted (Publish env kp headers msgs).log, OneCorrelationHeader msg) ∧
      ∀ msg ∈ submitted (PublishWithKey env kp headers key msgs).log,
        OneCorrelationHeader msg := by
  have hP := Publish_events env kp headers msgs
  have hK := PublishWithKey_events env kp headers key msgs
  cases hres : resolveCorrelation headers (uuidNew (env.random 0)) with
  | none =>
    rw [hres] at hP hK
    rw [(submitted_quiet _ hP).1, (submitted_quiet _ hK).1]
    exact ⟨fun _ h => (by cases h), fun _ h => (by cases h)⟩
  | some r =>
    obtain ⟨hs1, u⟩ := r
    rw [hres] at hP hK
    obtain ⟨h1, h2⟩ := resolveCorrelation_unique headers hs1 _ u hc (uuidNew_wf _) hres
    have hone : ∀ msg : Message, msg.Headers = hs1 → OneCorrelationHeader msg := by
      intro msg hm
      unfold OneCorrelationHeader
      rw [hm]
      exact ⟨h1, fun v hv => by rw [h2 v hv]; rfl⟩
    exact ⟨fun msg hm => hone msg ((submitted_okFor hs1 u _ hP).1 msg hm),
      fun msg hm => hone msg ((submitted_okFor hs1 u _ hK).1 msg hm)⟩

theorem one_correlation_header_per_message_witness :
    ExtractorContract [sampleTenant] ∧
      (submitted (PublishWithKey calmEnv demoProducer [sampleTenant] (some (ascii "user-42"))
        [1, 2, 3]).log).length = 3 ∧
      ((∀ msg ∈ submitted (Publish calmEnv demoProducer [sampleTenant] [1, 2, 3]).log,
          OneCorrelationHeader msg) ∧
        ∀ msg ∈ submitted (PublishWithKey calmEnv demoProducer [sampleTenant]
          (some (ascii "user-42")) [1, 2, 3]).log, OneCorrelationHeader msg) :=
  ⟨by decide, by decide,
    one_correlation_header_per_message calmEnv demoProducer [sampleTenant]
      (some (ascii "user-42")) [1, 2, 3] (by decide)⟩

/-- C4. When no header of the context is a correlation id, the id `u` drawn
by the first `uuid.New()` of the call is a version-4 UUID whose text parses
back to `u`; every message of `Publish` and of `PublishWithKey` carries the
extracted headers followed by `X-Correlation-Id = u`, and every span of the
call is keyed by `u`, also in the later iterations of `PublishWithKey`. -/
theorem synthesised_correlation_shared {T E : Type} (env : Env T E) (kp : KafkaProducer)
    (headers : List Header) (key : Option Bytes) (msgs : List T)
    (hno : ∀ h ∈ headers, ¬ h.isCorrelation) :
    uuidParse (uuidString (uuidNew (env.random 0))) = some (uuidNew (env.random 0)) ∧
      uuidVersion (uuidNew (env.random 0)) = 4 ∧ uuidIsRFC4122 (uuidNew (env.random 0)) ∧
      (∀ msg ∈ submitted (Publish env kp headers msgs).log, msg.Headers = headers ++
        [{ Key := XCORRELATIONID, Value := uuidString (uuidNew (env.random 0)) }]) ∧
      spanKeys (Publish env kp headers msgs).log = [uuidNew (env.random 0)] ∧
      (∀ msg ∈ submitted (PublishWithKey env kp headers key msgs).log, msg.Headers = headers ++
        [{ Key := XCORRELATIONID, Value := uuidString (uuidNew (env.random 0)) }]) ∧
      ∀ c ∈ spanKeys (PublishWithKey env kp headers key msgs).log,
        c = uuidNew (env.random 0) := by
  have hres := resolveCorrelation_absent headers (uuidNew (env.random 0)) hno
  have hP := Publish_events env kp headers msgs
  have hK := PublishWithKey_events env kp headers key msgs
  rw [hres] at hP hK
  exact ⟨uuidParse_uuidString _ (uuidNew_wf _), uuidVersion_uuidNew _, uuidIsRFC4122_uuidNew _,
    (submitted_okFor _ _ _ hP).1, Publish_spanKeys env kp headers _ _ msgs hres,
    (submitted_okFor _ _ _ hK).1, (submitted_okFor _ _ _ hK).2⟩

theorem synthesised_correlation_shared_witness :
    (∀ h ∈ [sampleTenant], ¬ h.isCorrelation) ∧
      (spanKeys (PublishWithKey calmEnv demoProducer [sampleTenant] none [1, 2]).log).length = 2 ∧
      (uuidParse (uuidString (uuidNew (calmEnv.random 0))) = some (uuidNew (calmEnv.random 0)) ∧
        uuidVersion (uuidNew (calmEnv.random 0)) = 4 ∧
        uuidIsRFC4122 (uuidNew (calmEnv.random 0)) ∧
        (∀ msg ∈ submitted (Publish calmEnv demoProducer [sampleTenant] [1, 2]).log,
          msg.Headers = [sampleTenant] ++
            [{ Key := XCORRELATIONID, Value := uuidString (uuidNew (calmEnv.random 0)) }]) ∧
        spanKeys (Publish calmEnv demoProducer [sampleTenant] [1, 2]).log =
          [uuidNew (calmEnv.random 0)] ∧
        (∀ msg ∈ submitted (PublishWithKey calmEnv demoProducer [sampleTenant] none [1, 2]).log,
          msg.Headers = [sampleTenant] ++
            [{ Key := XCORRELATIONID, Value := uuidString (uuidNew (calmEnv.random 0)) }]) ∧
        ∀ c ∈ spanKeys (PublishWithKey calmEnv demoProducer [sampleTenant] none [1, 2]).log,
          c = uuidNew (calmEnv.random 0)) :=
  ⟨by decide, by decide,
    synthesised_correlation_shared calmEnv demoProducer [sampleTenant] none [1, 2] (by decide)⟩

/-- C5. When the extracted headers hold the correlation id `v` (non-empty, the
only value under that key) and `v` parses to `u`, every message of `Publish`
and of `PublishWithKey` carries the extracted headers unchanged, so its
`X-Correlation-Id` value is `v` and nothing is appended; the span of `Publish`
is started with `u`, and so is every span of `PublishWithKey`. -/
theorem correlation_passthrough {T E : Type} (env : Env T E) (kp : KafkaProducer)
    (headers : List Header) (key : Option Bytes) (msgs : List T) (v : Bytes) (u : UUID)
    (hmem : { Key := XCORRELATIONID, Value := v } ∈ headers)
    (hne : v.length > 0)
    (honly : ∀ h ∈ headers, h.Key = XCORRELATIONID → h.Value = v)
    (hp : uuidParse v = some u) :
    (∀ msg ∈ submitted (Publish env kp headers msgs).log,
        msg.Headers = headers ∧ ∀ h ∈ msg.Headers, h.Key = XCORRELATIONID → h.Value = v) ∧
      spanKeys (Publish env kp headers msgs).log = [u] ∧
      (∀ msg ∈ submitted (PublishWithKey env kp headers key msgs).log,
        msg.Headers = headers ∧ ∀ h ∈ msg.Headers, h.Key = XCORRELATIONID → h.Value = v) ∧
      ∀ c ∈ spanKeys (PublishWithKey env kp headers key msgs).log, c = u := by
  have hres := resolveCorrelation_present headers (uuidNew (env.random 0)) u v
    ⟨_, hmem, rfl, hne⟩ (fun h hh hc => honly h hh hc.1) hp
  have hP := Publish_events env kp headers msgs
  have hK := PublishWithKey_events env kp headers key msgs
  rw [hres] at hP hK
  refine ⟨fun msg hm => ?_, Publish_spanKeys env kp headers _ _ msgs hres,
    fun msg hm => ?_, (submitted_okFor _ _ _ hK).2⟩
  · have := (submitted_okFor _ _ _ hP).1 msg hm
    exact ⟨this, by rw [this]; exact honly⟩
  · have := (submitted_okFor _ _ _ hK).1 msg hm
    exact ⟨this, by rw [this]; exact honly⟩

theorem correlation_passthrough_witness :
    sampleCorrelation ∈ [sampleCorrelation, sampleTenant] ∧
      uuidParse sampleCorrelation.Value =
        some [85, 14, 132, 0, 226, 155, 65, 212, 167, 22, 68, 102, 85, 68, 0, 0] ∧
      ((∀ msg ∈ submitted (Publish calmEnv demoProducer [sampleCorrelation, sampleTenant]
            [1, 2]).log,
          msg.Headers = [sampleCorrelation, sampleTenant] ∧
            ∀ h ∈ msg.Headers, h.Key = XCORRELATIONID → h.Value = sampleCorrelation.Value) ∧
        spanKeys (Publish calmEnv demoProducer [sampleCorrelation, sampleTenant] [1, 2]).log =
          [[85, 14, 132, 0, 226, 155, 65, 212, 167, 22, 68, 102, 85, 68, 0, 0]] ∧
        (∀ msg ∈ submitted (PublishWithKey calmEnv demoProducer
            [sampleCorrelation, sampleTenant] none [1, 2]).log,
          msg.Headers = [sampleCorrelation, sampleTenant] ∧
            ∀ h ∈ msg.Headers, h.Key = XCORRELATIONID → h.Value = sampleCorrelation.Value) ∧
        ∀ c ∈ spanKeys (PublishWithKey calmEnv demoProducer [sampleCorrelation, sampleTenant]
            none [1, 2]).log,
          c = [85, 14, 132, 0, 226, 155, 65, 212, 167, 22, 68, 102, 85, 68, 0, 0]) :=
  ⟨by decide, by decide,
    correlation_passthrough calmEnv demoProducer [sampleCorrelation, sampleTenant] none [1, 2]
      sampleCorrelation.Value [85, 14, 132, 0, 226, 155, 65, 212, 167, 22, 68, 102, 85, 68, 0, 0]
      (by decide) (by decide) (by decide) (by decide)⟩

/-- C2, as stated, fails: with `X-Correlation-Id = "not-a-uuid"` in the context
and no records, `Publish` panics instead of returning an error, and
`PublishWithKey` returns nil. -/
theorem invalid_correlation_not_returned :
    uuidParse notAUuid.Value = none ∧
      (Publish calmEnv demoProducer [notAUuid] []).out = .panicked ∧
      (PublishWithKey calmEnv demoProducer [notAUuid] none []).out = .returned none := by
  decide

/-- C2, amended. If the extracted headers hold an `X-Correlation-Id` whose
value is non-empty and does not parse as a UUID, then neither `Publish` nor
`PublishWithKey` hands any message to `Produce`; `Publish` panics (in
`uuid.MustParse`) for every record list, the empty one included, and
`PublishWithKey` panics whenever its client is constructed and there is at
least one record. -/
theorem invalid_correlation_panics {T E : Type} (env : Env T E) (kp : KafkaProducer)
    (headers : List Header) (key : Option Bytes) (msgs : List T)
    (hbad : ∃ h ∈ headers, h.Key = XCORRELATIONID ∧ h.Value.length > 0 ∧
      uuidParse h.Value = none) :
    (Publish env kp headers msgs).out = .panicked ∧
      submitted (Publish env kp headers msgs).log = [] ∧
      submitted (PublishWithKey env kp headers key msgs).log = [] ∧
      (env.newProducer = none → msgs ≠ [] →
        (PublishWithKey env kp headers key msgs).out = .panicked) := by
  obtain ⟨h, hh, hk, hl, hp⟩ := hbad
  have hres : ∀ f, resolveCorrelation headers f = none :=
    fun f => resolveCorrelation_none headers f ⟨h, hh, ⟨hk, hl⟩, hp⟩
  have hP := Publish_events env kp headers msgs
  have hK := PublishWithKey_events env kp headers key msgs
  rw [hres] at hP hK
  refine ⟨(Publish_panics env kp headers msgs (hres _)).2, (submitted_quiet _ hP).1,
    (submitted_quiet _ hK).1, fun hnew hne => ?_⟩
  obtain ⟨tail, -, -, hout⟩ := PublishWithKey_shape env kp headers key msgs hnew
  rw [hout]
  cases msgs with
  | nil => exact absurd rfl hne
  | cons m ms =>
    unfold publishWithKeyLoop
    rw [hres]

theorem invalid_correlation_panics_witness :
    (∃ h ∈ [sampleTenant, notAUuid], h.Key = XCORRELATIONID ∧ h.Value.length > 0 ∧
        uuidParse h.Value = none) ∧
      (Publish calmEnv demoProducer [sampleTenant, notAUuid] [1, 2]).out = .panicked ∧
      submitted (Publish calmEnv demoProducer [sampleTenant, notAUuid] [1, 2]).log = [] ∧
      submitted (PublishWithKey calmEnv demoProducer [sampleTenant, notAUuid] none [1, 2]).log
        = [] ∧
      (PublishWithKey calmEnv demoProducer [sampleTenant, notAUuid] none [1, 2]).out =
        .panicked :=
  have h := invalid_correlation_panics calmEnv demoProducer [sampleTenant, notAUuid] none [1, 2]
    (by decide)
  ⟨by decide, h.1, h.2.1, h.2.2.1, h.2.2.2 rfl (by decide)⟩

/-! ## The claims on the record loop -/

/-- C7. If `Publish(ctx, r1, ..., rn)` returns nil, every record was encoded
and the calls on the broker client were exactly `Produce(encode r1)`, receive,
..., `Produce(encode rn)`, receive, in argument order, each message carrying
the resolved header list. -/
theorem Publish_success_in_order {T E : Type} (env : Env T E) (kp : KafkaProducer)
    (headers : List Header) (msgs : List T)
    (hok : (Publish env kp headers msgs).out = .returned none) :
    ∃ hs1 u datas, resolveCorrelation headers (uuidNew (env.random 0)) = some (hs1, u) ∧
      List.Forall₂ (fun r d => env.marshal r = .ok d) msgs datas ∧
      brokerOps (Publish env kp headers msgs).log = inOrder kp none hs1 datas := by
  cases hres : resolveCorrelation headers (uuidNew (env.random 0)) with
  | none =>
    rw [(Publish_panics env kp headers msgs hres).2] at hok
    cases hok
  | some r =>
    obtain ⟨hs1, u⟩ := r
    obtain ⟨tail, hlog, htail, hout⟩ := Publish_shape env kp headers hs1 u msgs hres
    rw [hout] at hok
    obtain ⟨datas, hf, hops⟩ := publishLoop_returned_nil env kp hs1 msgs 0 hok
    refine ⟨hs1, u, datas, rfl, hf, ?_⟩
    rw [hlog, brokerOps_append, brokerOps_append, hops, brokerOps_tail tail htail]
    simp [brokerOps]

theorem Publish_success_in_order_witness :
    (Publish calmEnv demoProducer [sampleTenant] [1, 2, 3]).out = .returned none ∧
      (brokerOps (Publish calmEnv demoProducer [sampleTenant] [1, 2, 3]).log).length = 6 ∧
      ∃ hs1 u datas,
        resolveCorrelation [sampleTenant] (uuidNew (calmEnv.random 0)) = some (hs1, u) ∧
        List.Forall₂ (fun r d => calmEnv.marshal r = .ok d) [1, 2, 3] datas ∧
        brokerOps (Publish calmEnv demoProducer [sampleTenant] [1, 2, 3]).log =
          inOrder demoProducer none hs1 datas :=
  ⟨by decide, by decide,
    Publish_success_in_order calmEnv demoProducer [sampleTenant] [1, 2, 3] (by decide)⟩

/-- C6, as stated, fails: with records `1, 0, 3`, of which `0` cannot be
encoded, and a broker that accepts and confirms everything, `Publish` panics
without submitting record `1` when the context holds `"not-a-uuid"`, and
`PublishWithKey` returns the error of `kafka.NewProducer`, not the encoding
error, when its client cannot be constructed. -/
theorem encoding_error_preempted :
    calmEnv.marshal 1 = .ok [1] ∧ calmEnv.marshal 0 = .error "json: unsupported value" ∧
      (Publish calmEnv demoProducer [notAUuid] [1, 0, 3]).out = .panicked ∧
      submitted (Publish calmEnv demoProducer [notAUuid] [1, 0, 3]).log = [] ∧
      (PublishWithKey noClientEnv demoProducer [] none [1, 0, 3]).out =
        .returned (some "No such configuration property") ∧
      submitted (PublishWithKey noClientEnv demoProducer [] none [1, 0, 3]).log = [] :=
  ⟨rfl, rfl, by decide, by decide, by decide, by decide⟩

/-- C6, amended. Provided every correlation id among the extracted headers
parses as a UUID and, for `PublishWithKey`, the client is constructed: if the
records are `pre ++ bad :: post`, every record of `pre` encodes, `bad` does not
(error `e`), and the broker accepts and confirms every submission, then
`Publish` and `PublishWithKey` return `e`, and the calls on the broker client
are exactly `Produce`, receive for each record of `pre`, in order; neither
`bad` nor any record of `post` is submitted. -/
theorem encoding_failure_stops_batch {T E : Type} (env : Env T E) (kp : KafkaProducer)
    (headers : List Header) (key : Option Bytes) (pre : List T) (datas : List Bytes) (bad : T)
    (post : List T) (e : E)
    (hcorr : ∀ h ∈ headers, h.isCorrelation → (uuidParse h.Value).isSome = true)
    (hnew : env.newProducer = none)
    (hpre : List.Forall₂ (fun r d => env.marshal r = .ok d) pre datas)
    (hbad : env.marshal bad = .error e)
    (hacc : ∀ i msg, env.produce i msg = none)
    (hconf : ∀ i msg, (env.delivery i msg).isSome = true) :
    ∃ hs1 u, resolveCorrelation headers (uuidNew (env.random 0)) = some (hs1, u) ∧
      (Publish env kp headers (pre ++ bad :: post)).out = .returned (some e) ∧
      brokerOps (Publish env kp headers (pre ++ bad :: post)).log = inOrder kp none hs1 datas ∧
      (PublishWithKey env kp headers key (pre ++ bad :: post)).out = .returned (some e) ∧
      brokerOps (PublishWithKey env kp headers key (pre ++ bad :: post)).log =
        inOrder kp key hs1 datas := by
  obtain ⟨hs1, u, hres⟩ := resolveCorrelation_some headers (uuidNew (env.random 0)) hcorr
  have hst := resolveCorrelation_stable headers hs1 _ u (uuidNew_wf _) hres
  obtain ⟨tailP, hlogP, htailP, houtP⟩ := Publish_shape env kp headers hs1 u (pre ++ bad :: post) hres
  obtain ⟨tailK, hlogK, htailK, houtK⟩ :=
    PublishWithKey_shape env kp headers key (pre ++ bad :: post) hnew
  obtain ⟨hP1, hP2⟩ := publishLoop_encoding env kp hs1 pre datas bad post e 0 hpre hbad hacc hconf
  obtain ⟨hK1, hK2⟩ := publishWithKeyLoop_encoding env kp key hs1 u hst pre datas bad post e 0
    hpre hbad hacc hconf
  rw [publishWithKeyLoop_restart env kp key headers hs1 u _ 0 hres] at hlogK houtK
  refine ⟨hs1, u, hres, houtP.trans hP1, ?_, houtK.trans hK1, ?_⟩
  · rw [hlogP, brokerOps_append, brokerOps_append, hP2, brokerOps_tail tailP htailP]
    simp [brokerOps]
  · rw [hlogK, brokerOps_append, brokerOps_append, hK2,
      brokerOps_tail tailK (fun ev hev => Or.inr (htailK ev hev))]
    simp [brokerOps]

theorem encoding_failure_stops_batch_witness :
    (∀ h ∈ [sampleCorrelation], h.isCorrelation → (uuidParse h.Value).isSome = true) ∧
      calmEnv.marshal 0 = .error "json: unsupported value" ∧
      (submitted (Publish calmEnv demoProducer [sampleCorrelation] ([1, 2] ++ 0 :: [3])).log).map
        (fun msg => msg.Value) = [[1], [2]] ∧
      ∃ hs1 u, resolveCorrelation [sampleCorrelation] (uuidNew (calmEnv.random 0)) =
          some (hs1, u) ∧
        (Publish calmEnv demoProducer [sampleCorrelation] ([1, 2] ++ 0 :: [3])).out =
          .returned (some "json: unsupported value") ∧
        brokerOps (Publish calmEnv demoProducer [sampleCorrelation] ([1, 2] ++ 0 :: [3])).log =
          inOrder demoProducer none hs1 [[1], [2]] ∧
        (PublishWithKey calmEnv demoProducer [sampleCorrelation] (some (ascii "user-42"))
          ([1, 2] ++ 0 :: [3])).out = .returned (some "json: unsupported value") ∧
        brokerOps (PublishWithKey calmEnv demoProducer [sampleCorrelation]
          (some (ascii "user-42")) ([1, 2] ++ 0 :: [3])).log =
          inOrder demoProducer (some (ascii "user-42")) hs1 [[1], [2]] :=
  ⟨by decide, rfl, by decide,
    encoding_failure_stops_batch calmEnv demoProducer [sampleCorrelation]
      (some (ascii "user-42")) [1, 2] [[1], [2]] 0 [3] "json: unsupported value"
      (by decide) rfl (.cons rfl (.cons rfl .nil)) rfl (fun _ _ => rfl) (fun _ _ => rfl)⟩

/-! ## Where the code departs from the claims -/

/-- C3 at the failing input. Every completion event carries a broker error,
yet `Publish` and `PublishWithKey` return nil for the records `1, 2`, record
the frames `100, 200` for each of them, and submit record `2` after the failed
delivery of record `1`. -/
theorem delivery_error_ignored :
    Ev.received (some "Broker: Message timed out") ∈
        (Publish lossyEnv demoProducer [] [1, 2]).log ∧
      (Publish lossyEnv demoProducer [] [1, 2]).out = .returned none ∧
      stackCodes (Publish lossyEnv demoProducer [] [1, 2]).log = [100, 200, 100, 200] ∧
      (submitted (Publish lossyEnv demoProducer [] [1, 2]).log).map (fun msg => msg.Value) =
        [[1], [2]] ∧
      (PublishWithKey lossyEnv demoProducer [] none [1, 2]).out = .returned none ∧
      stackCodes (PublishWithKey lossyEnv demoProducer [] none [1, 2]).log =
        [100, 200, 100, 200] ∧
      (submitted (PublishWithKey lossyEnv demoProducer [] none [1, 2]).log).map
        (fun msg => msg.Value) = [[1], [2]] := by
  decide

/-- C8 at the failing input. `Publish` on a record that cannot be encoded
returns the error with its span started and never ended; `PublishWithKey`
returns nil for one good record with its span started and never ended. The
outer segment is ended in both. -/
theorem span_left_open :
    (Publish calmEnv demoProducer [] [0]).out = .returned (some "json: unsupported value") ∧
      (spanKeys (Publish calmEnv demoProducer [] [0]).log).length = 1 ∧
      spansEnded (Publish calmEnv demoProducer [] [0]).log = [] ∧
      Ev.segmentEnd ∈ (Publish calmEnv demoProducer [] [0]).log ∧
      (PublishWithKey calmEnv demoProducer [] none [1]).out = .returned none ∧
      (spanKeys (PublishWithKey calmEnv demoProducer [] none [1]).log).length = 1 ∧
      spansEnded (PublishWithKey calmEnv demoProducer [] none [1]).log = [] ∧
      Ev.segmentEnd ∈ (PublishWithKey calmEnv demoProducer [] none [1]).log := by
  decide

/-- C9 at the failing input. For the records `1, 0, 3`, of which `0` cannot be
encoded, `Publish` and `PublishWithKey` return the encoding error while the
frames recorded are `100, 200` (those of record `1`): no frame has code 500.
When `Produce` refuses a message, the sibling path, the frames are `100, 500`. -/
theorem encoding_error_without_500_frame :
    (Publish calmEnv demoProducer [] [1, 0, 3]).out =
        .returned (some "json: unsupported value") ∧
      stackCodes (Publish calmEnv demoProducer [] [1, 0, 3]).log = [100, 200] ∧
      (PublishWithKey calmEnv demoProducer [] none [1, 0, 3]).out =
        .returned (some "json: unsupported value") ∧
      stackCodes (PublishWithKey calmEnv demoProducer [] none [1, 0, 3]).log = [100, 200] ∧
      (Publish fullEnv demoProducer [] [1]).out = .returned (some "Local: Queue full") ∧
      stackCodes (Publish fullEnv demoProducer [] [1]).log = [100, 500] ∧
      (PublishWithKey fullEnv demoProducer [] none [1]).out =
        .returned (some "Local: Queue full") ∧
      stackCodes (PublishWithKey fullEnv demoProducer [] none [1]).log = [100, 500] := by
  decide

end GoFramework
